import Mathlib

/-!
Verification of the zane-ops/cdn worker core (src/index.ts, src/types.ts).

The development shallowly embeds the worker's core logic in Lean:

* the identity hasher (generate256Hash / generateHMAC256 / generateDoubleHash,
  src/index.ts lines 11-43), with SHA-256 and HMAC-SHA-256 implemented
  concretely (FIPS 180-4 / RFC 2104) over byte lists, bytes as Nat;
* the throttle decision and the /api/ping handler state machine
  (lines 223-285), timestamps as Int milliseconds, JS number arithmetic on
  the elapsed-time ratio embedded as exact rational arithmetic;
* getDateRange (lines 59-93) over a model of JS Date: an instant is an Int
  of UTC milliseconds since the epoch; the civil (year, month, day)
  decomposition of a day number is implemented with the standard proleptic
  Gregorian algorithms, and ECMA-262 MakeDay / setDate / setMonth /
  setHours semantics are embedded on top of it;
* parseQueryParam (lines 95-104) and the /api/pings/unique-activity
  handler (lines 411-501), including the SQL text it builds and a
  relational model of the grouped query it executes over the ip_pings log.

Database semantics used by the handlers (unique constraint on the registry,
SELECT max / GROUP BY over ip_pings) are modelled relationally over lists,
as the schema itself is not part of the source tree.
-/

namespace Cdn

/-! ## Bytes, words, and the SHA-256 primitive (FIPS 180-4) -/

/-- Right rotation of a 32-bit word (value as a `Nat` below `2 ^ 32`). -/
def rotr32 (n x : Nat) : Nat :=
  (x / 2 ^ n + x % 2 ^ n * 2 ^ (32 - n)) % 4294967296

/-- Logical right shift of a 32-bit word. -/
def shr32 (n x : Nat) : Nat := x / 2 ^ n

/-- Bitwise complement within 32 bits. -/
def notW (x : Nat) : Nat := 4294967295 ^^^ x

/-- FIPS 180-4 sigma-0 message-schedule function. -/
def ssig0 (x : Nat) : Nat := rotr32 7 x ^^^ rotr32 18 x ^^^ shr32 3 x

/-- FIPS 180-4 sigma-1 message-schedule function. -/
def ssig1 (x : Nat) : Nat := rotr32 17 x ^^^ rotr32 19 x ^^^ shr32 10 x

/-- FIPS 180-4 Sigma-0 compression function. -/
def bsig0 (x : Nat) : Nat := rotr32 2 x ^^^ rotr32 13 x ^^^ rotr32 22 x

/-- FIPS 180-4 Sigma-1 compression function. -/
def bsig1 (x : Nat) : Nat := rotr32 6 x ^^^ rotr32 11 x ^^^ rotr32 25 x

/-- Big-endian bytes of a value, `n` bytes wide. -/
def beBytes : Nat → Nat → List Nat
  | 0, _ => []
  | n + 1, v => v / 2 ^ (8 * n) % 256 :: beBytes n v

/-- The 64 SHA-256 round constants (fractional parts of the cube roots of
the first 64 primes). -/
def k256 : List Nat := [
  1116352408, 1899447441, 3049323471, 3921009573, 961987163, 1508970993, 2453635748, 2870763221,
  3624381080, 310598401, 607225278, 1426881987, 1925078388, 2162078206, 2614888103, 3248222580,
  3835390401, 4022224774, 264347078, 604807628, 770255983, 1249150122, 1555081692, 1996064986,
  2554220882, 2821834349, 2952996808, 3210313671, 3336571891, 3584528711, 113926993, 338241895,
  666307205, 773529912, 1294757372, 1396182291, 1695183700, 1986661051, 2177026350, 2456956037,
  2730485921, 2820302411, 3259730800, 3345764771, 3516065817, 3600352804, 4094571909, 275423344,
  430227734, 506948616, 659060556, 883997877, 958139571, 1322822218, 1537002063, 1747873779,
  1955562222, 2024104815, 2227730452, 2361852424, 2428436474, 2756734187, 3204031479, 3329325298]

/-- The initial SHA-256 hash state (fractional parts of the square roots of
the first 8 primes). -/
def h256init : List Nat :=
  [1779033703, 3144134277, 1013904242, 2773480762, 1359893119, 2600822924, 528734635, 1541459225]

/-- FIPS 180-4 message padding: append `0x80`, zero bytes up to 56 mod 64,
then the bit length as 8 big-endian bytes. -/
def padMessage (msg : List Nat) : List Nat :=
  msg ++ 128 :: List.replicate ((64 - (msg.length + 9) % 64) % 64) 0 ++ beBytes 8 (8 * msg.length)

/-- Split a byte list into 64-byte blocks. -/
def toBlocks (l : List Nat) : List (List Nat) :=
  if h : l = [] then [] else l.take 64 :: toBlocks (l.drop 64)
termination_by l.length
decreasing_by
  simp only [List.length_drop]
  have : 0 < l.length := List.length_pos.mpr h
  omega

/-- The 16 big-endian 32-bit words of one 64-byte block. -/
def wordsOfBlock (b : List Nat) : List Nat :=
  (List.range 16).map fun i =>
    b.getD (4 * i) 0 * 16777216 + b.getD (4 * i + 1) 0 * 65536 +
      b.getD (4 * i + 2) 0 * 256 + b.getD (4 * i + 3) 0

/-- Extend the 16 message words to the 64-entry message schedule. -/
def extendSchedule (w : List Nat) : List Nat :=
  (List.range 48).foldl
    (fun acc _ =>
      let n := acc.length
      acc ++ [(acc.getD (n - 16) 0 + ssig0 (acc.getD (n - 15) 0) + acc.getD (n - 7) 0 +
        ssig1 (acc.getD (n - 2) 0)) % 4294967296])
    w

/-- The eight 32-bit working registers of the SHA-256 compression loop. -/
structure Regs8 where
  a : Nat
  b : Nat
  c : Nat
  d : Nat
  e : Nat
  f : Nat
  g : Nat
  h : Nat

/-- One SHA-256 round, consuming one (round constant, schedule word) pair. -/
def compressStep (st : Regs8) (kw : Nat × Nat) : Regs8 :=
  let ch := (st.e &&& st.f) ^^^ (notW st.e &&& st.g)
  let maj := (st.a &&& st.b) ^^^ (st.a &&& st.c) ^^^ (st.b &&& st.c)
  let t1 := (st.h + bsig1 st.e + ch + kw.1 + kw.2) % 4294967296
  let t2 := (bsig0 st.a + maj) % 4294967296
  ⟨(t1 + t2) % 4294967296, st.a, st.b, st.c, (st.d + t1) % 4294967296, st.e, st.f, st.g⟩

/-- Compress one 64-byte block into the running 8-word hash state. -/
def compressBlock (hs : List Nat) (block : List Nat) : List Nat :=
  let ws := extendSchedule (wordsOfBlock block)
  let init : Regs8 := ⟨hs.getD 0 0, hs.getD 1 0, hs.getD 2 0, hs.getD 3 0,
    hs.getD 4 0, hs.getD 5 0, hs.getD 6 0, hs.getD 7 0⟩
  let fin := (k256.zip ws).foldl compressStep init
  [(hs.getD 0 0 + fin.a) % 4294967296, (hs.getD 1 0 + fin.b) % 4294967296,
    (hs.getD 2 0 + fin.c) % 4294967296, (hs.getD 3 0 + fin.d) % 4294967296,
    (hs.getD 4 0 + fin.e) % 4294967296, (hs.getD 5 0 + fin.f) % 4294967296,
    (hs.getD 6 0 + fin.g) % 4294967296, (hs.getD 7 0 + fin.h) % 4294967296]

/-- SHA-256 of a byte list, as its 32-byte digest. -/
def sha256 (msg : List Nat) : List Nat :=
  (((toBlocks (padMessage msg)).foldl compressBlock h256init).map (beBytes 4)).flatten

/-- HMAC-SHA-256 (RFC 2104): key padded or hashed to the 64-byte block size,
then two nested SHA-256 passes over the xored pads. This is the semantics of
the WebCrypto HMAC sign operation invoked by the source. -/
def hmacSha256 (key msg : List Nat) : List Nat :=
  let k0 := if 64 < key.length then sha256 key else key
  let kp := k0 ++ List.replicate (64 - k0.length) 0
  sha256 ((kp.map fun b => b ^^^ 92) ++ sha256 ((kp.map fun b => b ^^^ 54) ++ msg))

/-- UTF-8 bytes of one Unicode scalar value (the TextEncoder semantics used
by the source for both messages and keys). -/
def utf8Char (c : Nat) : List Nat :=
  if c < 128 then [c]
  else if c < 2048 then [192 + c / 64, 128 + c % 64]
  else if c < 65536 then [224 + c / 4096, 128 + c / 64 % 64, 128 + c % 64]
  else [240 + c / 262144, 128 + c / 4096 % 64, 128 + c / 64 % 64, 128 + c % 64]

/-- UTF-8 encoding of a string, as the JS TextEncoder produces it. -/
def utf8Bytes (s : String) : List Nat :=
  (s.data.map fun ch => utf8Char ch.toNat).flatten

/-- A lowercase hexadecimal digit character. -/
def hexDigitChar (n : Nat) : Char :=
  if n < 10 then Char.ofNat (48 + n) else Char.ofNat (87 + n)

/-- JS `b.toString(16)` for a byte value `b < 256`: lowercase hex without
leading zero padding. -/
def jsHexByte (b : Nat) : String :=
  if b < 16 then String.mk [hexDigitChar b]
  else String.mk [hexDigitChar (b / 16), hexDigitChar (b % 16)]

/-- JS `.padStart(2, "0")` on a hex-digit string. -/
def padStart2 (s : String) : String :=
  if s.length < 2 then "0" ++ s else s

/-- Hex encoding of a byte list: each byte as two lowercase hex digits,
concatenated. -/
def hexEncode (bs : List Nat) : String :=
  String.join (bs.map fun b => padStart2 (jsHexByte b))

/-- src/index.ts lines 11-19: UTF-8 encode the message, SHA-256 it, map each
byte through toString(16).padStart(2, "0"), and join. -/
def generate256Hash (message : String) : String :=
  String.join ((sha256 (utf8Bytes message)).map fun b => padStart2 (jsHexByte b))

/-- src/index.ts lines 21-38: import the UTF-8 bytes of `secret` as the HMAC
key, sign the UTF-8 bytes of `message`, and hex the signature bytes. -/
def generateHMAC256 (message secret : String) : String :=
  String.join ((hmacSha256 (utf8Bytes secret) (utf8Bytes message)).map fun b =>
    padStart2 (jsHexByte b))

/-- src/index.ts lines 41-43: the HMAC over the SHA-256 hex digest, keyed by
the pepper. -/
def generateDoubleHash (ip secret : String) : String :=
  generateHMAC256 (generate256Hash ip) secret

/-! ## Durations and the ping throttle (src/index.ts lines 45-57, 223-285) -/

/-- The unit union type of durationToMs. -/
inductive DurationUnit where
  | seconds
  | minutes
  | hours
  | days
  | weeks

/-- src/index.ts lines 45-57: value times the per-unit millisecond
multiplier. -/
def durationToMs (value : Int) (unit : DurationUnit) : Int :=
  value *
    (match unit with
     | .seconds => 1000
     | .minutes => 60 * 1000
     | .hours => 60 * 60 * 1000
     | .days => 24 * 60 * 60 * 1000
     | .weeks => 7 * 24 * 60 * 60 * 1000)

/-- types.ts PingResponse. -/
structure PingResponse where
  success : Bool
  message : String
deriving DecidableEq

/-- The persistent state the ping path touches: ip_registry rows (their
ip_hmac column) and ip_pings rows as (ip_hmac, ping_timestamp) pairs,
timestamps in ms. -/
structure PingState where
  registry : List String
  pings : List (String × Int)
deriving DecidableEq

/-- src/index.ts lines 239-243: SELECT ping_timestamp FROM ip_pings WHERE
ip_hmac = ? ORDER BY ping_timestamp DESC LIMIT 1 - the greatest stored
timestamp for the identifier, if any. -/
def lastPingTimestamp (ipHmac : String) (pings : List (String × Int)) : Option Int :=
  ((pings.filter fun e => e.1 == ipHmac).map fun e => e.2).max?

/-- src/index.ts lines 245-256: the throttle decision. With a previous ping,
JS divides the elapsed ms by durationToMs(30, "minutes") and records iff the
ratio is at least 1; the float division is embedded as exact rational
division. With no previous ping the default true is kept. -/
def shouldRecordPing (lastPing : Option Int) (currentTime : Int) : Bool :=
  match lastPing with
  | none => true
  | some lastPingTime =>
    decide (1 ≤ ((currentTime - lastPingTime : Int) : ℚ) / ((durationToMs 30 .minutes : Int) : ℚ))

/-- The registry insert of src/index.ts lines 116-122. Modelled from the
spec: the ip_registry schema (the unique constraint that ON CONFLICT DO
NOTHING relies on) is not in the source tree; spec section 4.2 specifies an
atomic insert-if-absent keyed on the identifier. -/
def registryInsert (hmac : String) (reg : List String) : List String :=
  if reg.contains hmac then reg else reg ++ [hmac]

/-- src/index.ts lines 114-126: hash the address with the pepper, upsert the
identifier into the registry, and return the identifier. -/
def upsertIp (ip : String) (pepper : String) (reg : List String) : List String × String :=
  let hmac := generateDoubleHash ip pepper
  (registryInsert hmac reg, hmac)

/-- src/index.ts lines 234-273 with the identifier already hashed: upsert it,
read its last ping, decide, and conditionally append a ping row stamped with
the current time (the database stamps rows with the insertion time; the
caller passes that clock value here). Returns the new state and the JSON
body. -/
def pingHandler (ipHmac : String) (now : Int) (st : PingState) : PingState × PingResponse :=
  let st1 : PingState := { st with registry := registryInsert ipHmac st.registry }
  let lastPing := lastPingTimestamp ipHmac st1.pings
  if shouldRecordPing lastPing now then
    ({ st1 with pings := (ipHmac, now) :: st1.pings },
      { success := true, message := "Ping recorded successfully" })
  else
    (st1, { success := false,
            message := "Ping not recorded - less than 30 minutes since last ping" })

/-- The states reachable from an empty database by /api/ping calls, for
arbitrary identifiers and arbitrary (not even monotone) clock readings. -/
inductive ReachablePing : PingState → Prop where
  | empty : ReachablePing ⟨[], []⟩
  | step (ipHmac : String) (now : Int) {st : PingState} :
      ReachablePing st → ReachablePing (pingHandler ipHmac now st).1

/-! ## The JS Date model (proleptic Gregorian calendar, UTC) -/

/-- Year-of-era from day-of-era, the standard civil-from-days formula. -/
def yoeOfDoe (doe : Int) : Int :=
  (doe - doe / 1460 + doe / 36524 - doe / 146096) / 365

/-- Day-of-year (March-based) from day-of-era. -/
def doyOfDoe (doe : Int) : Int :=
  doe - (365 * yoeOfDoe doe + yoeOfDoe doe / 4 - yoeOfDoe doe / 100)

/-- Civil (year, month 1-12, day 1-31) of a day number (days since
1970-01-01, UTC), the calendar decomposition behind the ECMA-262
YearFromTime / MonthFromTime / DateFromTime operations. -/
def civilFromDays (z : Int) : Int × Int × Int :=
  let era := (z + 719468) / 146097
  let doe := (z + 719468) % 146097
  let yoe := yoeOfDoe doe
  let y := yoe + era * 400
  let doy := doyOfDoe doe
  let mp := (5 * doy + 2) / 153
  let d := doy - (153 * mp + 2) / 5 + 1
  let m := mp + (if mp < 10 then (3 : Int) else -9)
  (y + (if m ≤ 2 then 1 else 0), m, d)

/-- Day number of a civil date (month 1-12; out-of-range days roll over
linearly, which is exactly the ECMA MakeDay behaviour). -/
def daysFromCivil (y m d : Int) : Int :=
  let yy := y - (if m ≤ 2 then 1 else 0)
  let era := yy / 400
  let yoe := yy - era * 400
  let mp := (m + 9) % 12
  let doy := (153 * mp + 2) / 5 + d - 1
  let doe := yoe * 365 + yoe / 4 - yoe / 100 + doy
  era * 146097 + doe - 719468

/-- ECMA Day(t): the day number containing instant t. -/
def jsDay (t : Int) : Int := t / 86400000

/-- ECMA TimeWithinDay(t). -/
def timeWithinDay (t : Int) : Int := t % 86400000

/-- ECMA HourFromTime(t), as getHours returns it (UTC model). -/
def jsHours (t : Int) : Int := t / 3600000 % 24

/-- ECMA MinFromTime(t). -/
def jsMinutes (t : Int) : Int := t / 60000 % 60

/-- ECMA SecFromTime(t). -/
def jsSeconds (t : Int) : Int := t / 1000 % 60

/-- ECMA msFromTime(t). -/
def jsMilliseconds (t : Int) : Int := t % 1000

/-- The civil triple of the day containing t. -/
def civilOf (t : Int) : Int × Int × Int := civilFromDays (jsDay t)

/-- getFullYear. -/
def jsFullYear (t : Int) : Int := (civilOf t).1

/-- getMonth: 0-based month. -/
def jsMonth (t : Int) : Int := (civilOf t).2.1 - 1

/-- getDate: 1-based day of month. -/
def jsDate (t : Int) : Int := (civilOf t).2.2

/-- ECMA MakeDay(year, month, date): the month is normalized with a year
carry, then the result is the day number of the first of that month plus
date - 1. -/
def jsMakeDay (y m dt : Int) : Int :=
  daysFromCivil (y + m / 12) (m % 12 + 1) 1 + dt - 1

/-- setHours(h, min, s, ms): rebuild the time within the same day. -/
def jsSetHours (t h min s ms : Int) : Int :=
  jsDay t * 86400000 + (h * 3600000 + min * 60000 + s * 1000 + ms)

/-- setHours(h) with minutes, seconds and milliseconds kept from t. -/
def jsSetHoursOnly (t h : Int) : Int :=
  jsSetHours t h (jsMinutes t) (jsSeconds t) (jsMilliseconds t)

/-- setDate(n): MakeDay with the current year and month, keeping the time of
day. -/
def jsSetDate (t n : Int) : Int :=
  jsMakeDay (jsFullYear t) (jsMonth t) n * 86400000 + timeWithinDay t

/-- setMonth(m): MakeDay with the current year and day of month, keeping the
time of day. -/
def jsSetMonth (t m : Int) : Int :=
  jsMakeDay (jsFullYear t) m (jsDate t) * 86400000 + timeWithinDay t

/-- src/index.ts lines 59-93: getDateRange. Instants instead of the ISO
strings the source renders them to (toISOString is an injective formatting
of the instant). The "all" case and the unrecognized-period default both
return null in the source; both are the none branch here. -/
def getDateRange (period : String) (currentDate : Int) : Option (Int × Int) :=
  if period = "24h" then
    some (jsSetHoursOnly currentDate (jsHours currentDate - 24), currentDate)
  else if period = "7d" then
    some (jsSetHours (jsSetDate currentDate (jsDate currentDate - 7)) 0 0 0 0, currentDate)
  else if period = "30d" then
    some (jsSetHours (jsSetDate currentDate (jsDate currentDate - 30)) 0 0 0 0, currentDate)
  else if period = "6month" then
    some (jsSetHours (jsSetMonth currentDate (jsMonth currentDate - 6)) 0 0 0 0, currentDate)
  else none

/-- The start (00:00:00.000 UTC) of the calendar day containing t: the
spec-side notion of snapping to the beginning of the day. -/
def startOfDay (t : Int) : Int := jsDay t * 86400000

/-- The spec-side instant n calendar months before t: subtract n from the
total month count, keep the day of month (overflow days rolling forward, the
JS month-arithmetic convention) and the time of day. -/
def monthsBefore (t n : Int) : Int :=
  let total := jsFullYear t * 12 + jsMonth t - n
  daysFromCivil (total / 12) (total % 12 + 1) (jsDate t) * 86400000 + timeWithinDay t

/-! ## Query parameter resolution and the unique-activity handler -/

/-- src/index.ts lines 95-104: keep a truthy value that passes the
allow-list (when one is given), otherwise the default. -/
def parseQueryParam (value : Option String) (defaultValue : String)
    (allowedValues : Option (List String)) : String :=
  match value with
  | none => defaultValue
  | some v =>
    if v ≠ "" ∧ (allowedValues.isNone ∨ (allowedValues.getD []).contains v) then v
    else defaultValue

/-- The period allow-list of the grouped handler (lines 361-365). -/
def allowedPeriods : List String := ["24h", "7d", "30d", "6month", "all"]

/-- Lines 357-372 of the grouped handler: period resolution composed with
range resolution. -/
def resolvedDateRange (periodParam : Option String) (now : Int) : Option (Int × Int) :=
  getDateRange (parseQueryParam periodParam "30d" (some allowedPeriods)) now

/-- JS parseInt(s, 10): skip leading whitespace, an optional sign, then the
longest digit prefix; NaN (none) when no digit follows. -/
def parseIntDec (s : String) : Option Int :=
  let cs := s.data.dropWhile fun c => c == ' ' || c == '\t' || c == '\n' || c == '\r'
  let signAndRest : Int × List Char :=
    match cs with
    | '-' :: rest => (-1, rest)
    | '+' :: rest => (1, rest)
    | _ => (1, cs)
  let ds := signAndRest.2.takeWhile fun c => c.isDigit
  if ds.isEmpty then none
  else some (signAndRest.1 * ((ds.foldl (fun acc c => acc * 10 + (c.toNat - 48)) 0 : Nat) : Int))

/-- src/index.ts lines 427-428: page defaults to 1 when the parameter is
falsy, and any NaN or below-1 value is replaced by 1. -/
def resolvePage (pageParam : Option String) : Int :=
  let page : Option Int :=
    match pageParam with
    | none => some 1
    | some s => if s = "" then some 1 else parseIntDec s
  match page with
  | none => 1
  | some n => if n < 1 then 1 else n

/-- src/index.ts lines 430-432: pageSize defaults to 10 when the parameter
is falsy, any NaN or below-1 value is replaced by 10, and values above 100
are capped at 100. -/
def resolvePageSize (pageSizeParam : Option String) : Int :=
  let ps : Option Int :=
    match pageSizeParam with
    | none => some 10
    | some s => if s = "" then some 10 else parseIntDec s
  let ps2 : Int :=
    match ps with
    | none => 10
    | some n => if n < 1 then 10 else n
  if ps2 > 100 then 100 else ps2

/-- The sortBy allow-list (lines 434-438). -/
def allowedSortBy : List String := ["first_seen", "total_pings"]

/-- The sortOrder allow-list (lines 439-443). -/
def allowedSortOrder : List String := ["asc", "desc"]

/-- src/index.ts lines 448-452: the allow-list object mapping a validated
sort key to the fixed column literal used in the ORDER BY (an absent key
would surface as the string rendering of undefined). -/
def validSortByColumns (s : String) : Option String :=
  if s = "first_seen" then some "first_seen"
  else if s = "total_pings" then some "total_pings"
  else none

/-- ASCII upper-casing: the effect of JS toUpperCase on the sort-order
tokens. -/
def asciiUpper (s : String) : String :=
  String.mk (s.data.map fun c =>
    if 97 ≤ c.toNat ∧ c.toNat ≤ 122 then Char.ofNat (c.toNat - 32) else c)

/-- src/index.ts lines 455-465: the data query text (whitespace normalized
from the template literal), with the ORDER BY column and direction
interpolated. -/
def dataQuerySQL (orderByColumn sortOrderUpper : String) : String :=
  "SELECT ip_hmac, MIN(ping_timestamp) as first_seen, MAX(ping_timestamp) as last_seen, COUNT(ping_timestamp) as total_pings FROM ip_pings GROUP BY ip_hmac ORDER BY "
    ++ orderByColumn ++ " " ++ sortOrderUpper ++ " LIMIT ? OFFSET ?;"

/-- types.ts UniqueActivityRecord. -/
structure UniqueActivityRecord where
  ip_hmac : String
  first_seen : Int
  last_seen : Int
  total_pings : Nat
deriving DecidableEq

/-- types.ts PaginationInfo. -/
structure PaginationInfo where
  totalItems : Nat
  currentPage : Int
  pageSize : Int
  totalPages : Int
deriving DecidableEq

/-- types.ts UniqueActivityResponse. -/
structure UniqueActivityResponse where
  data : List UniqueActivityRecord
  pagination : PaginationInfo
deriving DecidableEq

/-- The distinct identifiers of the log in first-appearance order: the
groups produced by GROUP BY ip_hmac. -/
def uniqueIds (log : List (String × Int)) : List String :=
  (log.map fun e => e.1).dedup

/-- The grouped row of one identifier: MIN, MAX and COUNT over its
ping_timestamp values. -/
def groupRow (log : List (String × Int)) (id : String) : UniqueActivityRecord :=
  let ts := (log.filter fun e => e.1 == id).map fun e => e.2
  { ip_hmac := id, first_seen := (ts.min?).getD 0, last_seen := (ts.max?).getD 0,
    total_pings := ts.length }

/-- The result set of the grouped data query before ORDER BY and paging. -/
def groupRows (log : List (String × Int)) : List UniqueActivityRecord :=
  (uniqueIds log).map (groupRow log)

/-- The sort key selected by the ORDER BY column literal. -/
def rowKey (col : String) (r : UniqueActivityRecord) : Int :=
  if col = "total_pings" then (r.total_pings : Int) else r.first_seen

/-- ORDER BY evaluation: a stable sort on the chosen column, ascending for
ASC and descending for DESC. -/
def sqlOrderRows (col ord : String) (rows : List UniqueActivityRecord) :
    List UniqueActivityRecord :=
  rows.mergeSort fun a b =>
    if ord = "ASC" then decide (rowKey col a ≤ rowKey col b)
    else decide (rowKey col b ≤ rowKey col a)

/-- JS Math.ceil(a / b) on numbers, embedded with exact rationals. -/
def jsCeilDiv (a b : Int) : Int := ⌈(a : ℚ) / (b : ℚ)⌉

/-- src/index.ts lines 411-501: the unique-activity handler. The two
prepared statements are evaluated relationally over the log: the data query
as group, sort, then LIMIT/OFFSET; the count query as the number of distinct
identifiers. -/
def uniqueActivity (pageParam pageSizeParam sortByParam sortOrderParam : Option String)
    (log : List (String × Int)) : UniqueActivityResponse :=
  let page := resolvePage pageParam
  let pageSize := resolvePageSize pageSizeParam
  let sortBy := parseQueryParam sortByParam "first_seen" (some allowedSortBy)
  let sortOrder := parseQueryParam sortOrderParam "desc" (some allowedSortOrder)
  let offset := (page - 1) * pageSize
  let orderByColumn := (validSortByColumns sortBy).getD "undefined"
  let rows := sqlOrderRows orderByColumn (asciiUpper sortOrder) (groupRows log)
  let data := (rows.drop offset.toNat).take pageSize.toNat
  let totalItems := (uniqueIds log).length
  let totalPages := jsCeilDiv (totalItems : Int) pageSize
  { data := data,
    pagination := { totalItems := totalItems, currentPage := page,
                    pageSize := pageSize, totalPages := totalPages } }

/-! ## Calendar lemmas -/

/-- The interior step of the year-of-era bound: within one century of the
era, the day-of-year offset computed from the year-of-era formula is
nonnegative. -/
theorem doy_nonneg_aux (a c e s b : Int)
    (hc : 0 ≤ c ∧ c ≤ 3)
    (ha : 36524 * c ≤ a ∧ a ≤ 36524 * c + 36523 ∧ a ≤ 146095)
    (he : 1460 * e ≤ a ∧ a ≤ 1460 * e + 1459)
    (hs : s = a - e + c)
    (hb : 365 * b ≤ s ∧ s ≤ 365 * b + 364) :
    0 ≤ a - (365 * b + b / 4 - b / 100) := by
  have h4 : b / 4 = s / 1460 := by omega
  have h100 : b / 100 = s / 36500 := by omega
  have hxe : s / 1460 ≤ e := by omega
  have hb100 : c ≤ s / 36500 := by omega
  omega

/-- Bounds of the year-of-era and day-of-year formulas on a day-of-era:
enough to reconstruct the day number from the civil triple. -/
theorem yoe_doy_bounds (a : Int) (h0 : 0 ≤ a) (h1 : a ≤ 146096) :
    0 ≤ yoeOfDoe a ∧ yoeOfDoe a ≤ 399 ∧ 0 ≤ doyOfDoe a ∧ doyOfDoe a ≤ 366 := by
  refine ⟨by unfold yoeOfDoe; omega, by unfold yoeOfDoe; omega, ?_,
    by unfold doyOfDoe yoeOfDoe; omega⟩
  unfold doyOfDoe yoeOfDoe
  rcases (by omega : a = 146096 ∨ a ≤ 146095) with rfl | h2
  · decide
  · have hg : a / 146096 = 0 := by omega
    have hfc : 0 ≤ a / 36524 ∧ a / 36524 ≤ 3 := by omega
    have hfr : 36524 * (a / 36524) ≤ a ∧ a ≤ 36524 * (a / 36524) + 36523 := by omega
    simp only [hg]
    exact doy_nonneg_aux a (a / 36524) (a / 1460)
      (a - a / 1460 + a / 36524 - 0)
      ((a - a / 1460 + a / 36524 - 0) / 365)
      hfc ⟨hfr.1, hfr.2, h2⟩ (by omega) (by omega) (by omega)

/-- Core of the round trip: rebuilding the day number from the civil pieces
recovers the era and day-of-era, needing only the coarse bounds above. -/
theorem roundtrip_core (z era doe yoe doy mp : Int)
    (hzd : z = 146097 * era + doe - 719468)
    (hyoe : 0 ≤ yoe ∧ yoe ≤ 399)
    (hdoy : doy = doe - (365 * yoe + yoe / 4 - yoe / 100))
    (hdoy2 : 0 ≤ doy ∧ doy ≤ 366)
    (hmp : mp = (5 * doy + 2) / 153) :
    daysFromCivil
      (yoe + era * 400 + (if mp + (if mp < 10 then (3 : Int) else -9) ≤ 2 then 1 else 0))
      (mp + (if mp < 10 then (3 : Int) else -9))
      (doy - (153 * mp + 2) / 5 + 1) = z := by
  have hmp0 : 0 ≤ mp := by omega
  have hmp11 : mp ≤ 11 := by omega
  unfold daysFromCivil
  by_cases hlt : mp < 10
  · simp only [if_pos hlt]
    have hc : ¬(mp + 3 ≤ 2) := by omega
    simp only [if_neg hc, add_zero, sub_zero]
    have h1 : (yoe + era * 400) / 400 = era := by omega
    rw [h1]
    have h3 : yoe + era * 400 - era * 400 = yoe := by ring
    rw [h3]
    have h2 : (mp + 3 + 9) % 12 = mp := by omega
    rw [h2]
    omega
  · simp only [if_neg hlt]
    have hc : mp + -9 ≤ 2 := by omega
    simp only [if_pos hc]
    have h0 : yoe + era * 400 + 1 - 1 = yoe + era * 400 := by ring
    rw [h0]
    have h1 : (yoe + era * 400) / 400 = era := by omega
    rw [h1]
    have h3 : yoe + era * 400 - era * 400 = yoe := by ring
    rw [h3]
    have h2 : (mp + -9 + 9) % 12 = mp := by omega
    rw [h2]
    omega

/-- The civil decomposition of a day number is a section of the day-number
reconstruction: converting back gives the same day. -/
theorem daysFromCivil_civilFromDays (z : Int) :
    daysFromCivil (civilFromDays z).1 (civilFromDays z).2.1 (civilFromDays z).2.2 = z := by
  obtain ⟨h1, h2, h3, h4⟩ := yoe_doy_bounds ((z + 719468) % 146097) (by omega) (by omega)
  exact roundtrip_core z ((z + 719468) / 146097) ((z + 719468) % 146097)
    (yoeOfDoe ((z + 719468) % 146097)) (doyOfDoe ((z + 719468) % 146097))
    ((5 * doyOfDoe ((z + 719468) % 146097) + 2) / 153)
    (by omega) ⟨h1, h2⟩ rfl ⟨h3, h4⟩ rfl

/-- The month of a civil decomposition lies in 1..12. -/
theorem civilFromDays_month_bounds (z : Int) :
    1 ≤ (civilFromDays z).2.1 ∧ (civilFromDays z).2.1 ≤ 12 := by
  obtain ⟨h1, h2, h3, h4⟩ := yoe_doy_bounds ((z + 719468) % 146097) (by omega) (by omega)
  unfold civilFromDays
  simp only
  by_cases hlt : (5 * doyOfDoe ((z + 719468) % 146097) + 2) / 153 < 10
  · rw [if_pos hlt]; omega
  · rw [if_neg hlt]; omega

/-- The reconstruction is affine in the day argument. -/
theorem daysFromCivil_day (y m d : Int) :
    daysFromCivil y m d = daysFromCivil y m 1 + d - 1 := by
  unfold daysFromCivil
  ring

/-- ECMA MakeDay applied to the civil decomposition of the current instant:
first day of the current month plus the requested date, as a plain offset
from the current day number. -/
theorem jsMakeDay_current (t n : Int) :
    jsMakeDay (jsFullYear t) (jsMonth t) n = jsDay t - jsDate t + n := by
  obtain ⟨hm1, hm2⟩ := civilFromDays_month_bounds (jsDay t)
  unfold jsMakeDay jsFullYear jsMonth jsDate civilOf
  have hdiv : ((civilFromDays (jsDay t)).2.1 - 1) / 12 = 0 := by omega
  have hmod : ((civilFromDays (jsDay t)).2.1 - 1) % 12 = (civilFromDays (jsDay t)).2.1 - 1 := by
    omega
  rw [hdiv, hmod, add_zero]
  have hlin := daysFromCivil_day (civilFromDays (jsDay t)).1
    ((civilFromDays (jsDay t)).2.1 - 1 + 1) (civilFromDays (jsDay t)).2.2
  have hrt := daysFromCivil_civilFromDays (jsDay t)
  rw [sub_add_cancel] at hlin
  rw [sub_add_cancel]
  omega

/-- setDate relative to the current date shifts the day number, keeping the
time of day. -/
theorem jsSetDate_shift (t k : Int) :
    jsSetDate t (jsDate t - k) = (jsDay t - k) * 86400000 + timeWithinDay t := by
  unfold jsSetDate
  rw [jsMakeDay_current]
  ring

/-- setHours(0,0,0,0) of an instant with a known day number snaps it to that
day's start. -/
theorem jsSetHours_snap (x t : Int) :
    jsSetHours (x * 86400000 + timeWithinDay t) 0 0 0 0 = x * 86400000 := by
  simp only [jsSetHours, jsDay, timeWithinDay]
  omega

/-- setMonth relative to the current month equals the spec-side
months-before computation. -/
theorem jsSetMonth_sub (t k : Int) :
    jsSetMonth t (jsMonth t - k) = monthsBefore t k := by
  simp only [jsSetMonth, monthsBefore, jsMakeDay]
  have h1 : jsFullYear t + (jsMonth t - k) / 12 = (jsFullYear t * 12 + jsMonth t - k) / 12 := by
    omega
  have h2 : (jsMonth t - k) % 12 = (jsFullYear t * 12 + jsMonth t - k) % 12 := by omega
  rw [h1, h2, daysFromCivil_day ((jsFullYear t * 12 + jsMonth t - k) / 12) _ (jsDate t)]

/-- C6: period resolution semantics of getDateRange. For every reference
time now: "24h" starts exactly 24 hours before now with no day-boundary
snapping; "7d" and "30d" start at 00:00:00 of the calendar day 7 resp. 30
days before now; "6month" starts at 00:00:00 of the day six calendar months
before now; "all" yields no range at all. -/
theorem getDateRange_period_semantics (now : Int) :
    getDateRange "24h" now = some (now - 24 * 3600000, now) ∧
    getDateRange "7d" now = some (startOfDay (now - 7 * 86400000), now) ∧
    getDateRange "30d" now = some (startOfDay (now - 30 * 86400000), now) ∧
    getDateRange "6month" now = some (startOfDay (monthsBefore now 6), now) ∧
    getDateRange "all" now = none := by
  have h24 : getDateRange "24h" now
      = some (jsSetHoursOnly now (jsHours now - 24), now) := rfl
  have h7 : getDateRange "7d" now
      = some (jsSetHours (jsSetDate now (jsDate now - 7)) 0 0 0 0, now) := rfl
  have h30 : getDateRange "30d" now
      = some (jsSetHours (jsSetDate now (jsDate now - 30)) 0 0 0 0, now) := rfl
  have h6m : getDateRange "6month" now
      = some (jsSetHours (jsSetMonth now (jsMonth now - 6)) 0 0 0 0, now) := rfl
  refine ⟨?_, ?_, ?_, ?_, rfl⟩
  · rw [h24]
    have : jsSetHoursOnly now (jsHours now - 24) = now - 24 * 3600000 := by
      simp only [jsSetHoursOnly, jsSetHours, jsHours, jsMinutes, jsSeconds,
        jsMilliseconds, jsDay]
      omega
    rw [this]
  · rw [h7, jsSetDate_shift, jsSetHours_snap]
    have : startOfDay (now - 7 * 86400000) = (jsDay now - 7) * 86400000 := by
      simp only [startOfDay, jsDay]
      omega
    rw [this]
  · rw [h30, jsSetDate_shift, jsSetHours_snap]
    have : startOfDay (now - 30 * 86400000) = (jsDay now - 30) * 86400000 := by
      simp only [startOfDay, jsDay]
      omega
    rw [this]
  · rw [h6m, jsSetMonth_sub]
    have hmb : monthsBefore now 6
        = daysFromCivil ((jsFullYear now * 12 + jsMonth now - 6) / 12)
            ((jsFullYear now * 12 + jsMonth now - 6) % 12 + 1) (jsDate now) * 86400000
          + timeWithinDay now := rfl
    rw [hmb, jsSetHours_snap]
    have : startOfDay
        (daysFromCivil ((jsFullYear now * 12 + jsMonth now - 6) / 12)
            ((jsFullYear now * 12 + jsMonth now - 6) % 12 + 1) (jsDate now) * 86400000
          + timeWithinDay now)
        = daysFromCivil ((jsFullYear now * 12 + jsMonth now - 6) / 12)
            ((jsFullYear now * 12 + jsMonth now - 6) % 12 + 1) (jsDate now) * 86400000 := by
      simp only [startOfDay, jsDay, timeWithinDay]
      omega
    rw [this]

example : civilFromDays 0 = (1970, 1, 1) := by decide
example : civilFromDays 19675 = (2023, 11, 14) := by decide
example : civilFromDays (-1) = (1969, 12, 31) := by decide
example : daysFromCivil 2023 11 14 = 19675 := by decide
example : getDateRange "24h" 1700000000000 = some (1699913600000, 1700000000000) := by decide
example : getDateRange "7d" 1700000000000 = some (1699315200000, 1700000000000) := by decide
example : getDateRange "30d" 1700000000000 = some (1697328000000, 1700000000000) := by decide
example : getDateRange "6month" 1700000000000 = some (1684022400000, 1700000000000) := by decide
example : getDateRange "all" 1700000000000 = none := by decide
example : getDateRange "bogus" 1700000000000 = none := by decide

/-! ## Throttle lemmas -/

/-- Antisymmetry of the integer order, packaged for the list-maximum
characterization. -/
instance : Std.Antisymm (fun (x y : Int) => x ≤ y) :=
  ⟨fun h1 h2 => le_antisymm h1 h2⟩

/-- Every member of an integer list is at most its maximum. -/
theorem max?_le_of_mem {l : List Int} {m a : Int} (h : l.max? = some m) (ha : a ∈ l) :
    a ≤ m :=
  ((@List.max?_eq_some_iff Int m _ _ _ le_refl (fun x y => max_choice x y)
    (fun _ _ _ => max_le_iff) l).mp h).2 a ha

/-- The throttle comparison, rationalized away: with a previous ping it
records exactly when at least 30 minutes (in ms) have elapsed. -/
theorem shouldRecordPing_some_iff (lastTime now : Int) :
    shouldRecordPing (some lastTime) now = true ↔ 1800000 ≤ now - lastTime := by
  have hd : durationToMs 30 .minutes = 1800000 := by decide
  unfold shouldRecordPing
  rw [hd]
  simp only [decide_eq_true_eq]
  rw [one_le_div (by norm_num : (0 : ℚ) < ((1800000 : Int) : ℚ))]
  constructor
  · intro h
    exact_mod_cast h
  · intro h
    exact_mod_cast h

/-- The stored timestamps of an identifier are bounded by its last ping
timestamp. -/
theorem le_lastPingTimestamp {id : String} {pings : List (String × Int)} {m : Int}
    (h : lastPingTimestamp id pings = some m) :
    ∀ e ∈ pings, e.1 = id → e.2 ≤ m := by
  intro e he heid
  unfold lastPingTimestamp at h
  refine max?_le_of_mem h ?_
  exact List.mem_map.mpr ⟨e, List.mem_filter.mpr ⟨he, by simp [heid]⟩, rfl⟩

/-- When no last ping exists, the log holds no event for the identifier. -/
theorem lastPingTimestamp_none {id : String} {pings : List (String × Int)}
    (h : lastPingTimestamp id pings = none) :
    ∀ e ∈ pings, e.1 ≠ id := by
  intro e he heid
  unfold lastPingTimestamp at h
  rw [List.max?_eq_none_iff, List.map_eq_nil_iff, List.filter_eq_nil_iff] at h
  exact h e he (by simp [heid])

/-- The ping handler either prepends one event stamped now (when the
throttle passes) or leaves the event log untouched. -/
theorem pingHandler_pings (ipHmac : String) (now : Int) (st : PingState) :
    (pingHandler ipHmac now st).1.pings =
      if shouldRecordPing (lastPingTimestamp ipHmac st.pings) now then
        (ipHmac, now) :: st.pings
      else st.pings := by
  simp only [pingHandler]
  split
  · rfl
  · rfl

/-- C1: with MIN_INTERVAL = durationToMs 30 minutes, a ping attempt any
positive epsilon before lastTime + MIN_INTERVAL is rejected, an attempt at
exactly lastTime + MIN_INTERVAL is recorded (the comparison is inclusive),
and a first-ever attempt (no prior event) is always recorded. -/
theorem throttle_boundary (lastTime eps : Int) (heps : 0 < eps) :
    shouldRecordPing (some lastTime) (lastTime + durationToMs 30 .minutes - eps) = false ∧
    shouldRecordPing (some lastTime) (lastTime + durationToMs 30 .minutes) = true ∧
    ∀ now : Int, shouldRecordPing none now = true := by
  have hd : durationToMs 30 .minutes = 1800000 := by decide
  refine ⟨?_, ?_, fun _ => rfl⟩
  · rw [Bool.eq_false_iff]
    intro hc
    have := (shouldRecordPing_some_iff _ _).mp hc
    omega
  · rw [shouldRecordPing_some_iff]
    omega

/-- Witness for the throttle boundary at lastTime = 0, eps = 1. -/
theorem throttle_boundary_witness :
    (0 : Int) < 1 ∧
      (shouldRecordPing (some 0) (0 + durationToMs 30 .minutes - 1) = false ∧
        shouldRecordPing (some 0) (0 + durationToMs 30 .minutes) = true ∧
        ∀ now : Int, shouldRecordPing none now = true) :=
  ⟨by decide, throttle_boundary 0 1 (by decide)⟩

/-- C2: in every state reachable by ping operations, any two events of the
same identifier are separated by at least MIN_INTERVAL (the log is ordered
newest first, so the earlier list entry carries the larger timestamp). The
guarantee comes from the write-time throttle decision alone: the storage
model appends without constraints. -/
theorem pings_min_interval_invariant {st : PingState} (h : ReachablePing st) :
    st.pings.Pairwise fun a b => a.1 = b.1 → b.2 + durationToMs 30 .minutes ≤ a.2 := by
  have hd : durationToMs 30 .minutes = 1800000 := by decide
  induction h with
  | empty => exact List.Pairwise.nil
  | step ipHmac now hst ih =>
    rw [pingHandler_pings]
    split
    case isTrue hrec =>
      refine List.Pairwise.cons ?_ ih
      intro e he heid
      cases hlp : lastPingTimestamp ipHmac _ with
      | none => exact absurd heid.symm (lastPingTimestamp_none hlp e he)
      | some m =>
        have h1 : 1800000 ≤ now - m :=
          (shouldRecordPing_some_iff m now).mp (by rwa [hlp] at hrec)
        have h2 : e.2 ≤ m := le_lastPingTimestamp hlp e he heid.symm
        omega
    case isFalse => exact ih

/-- Witness: the invariant on the concrete log left by a ping at 0 and a
ping at 1800000 for the same identifier. -/
theorem pings_min_interval_invariant_witness :
    ((pingHandler "x" 1800000 (pingHandler "x" 0 ⟨[], []⟩).1).1).pings.Pairwise
      (fun a b => a.1 = b.1 → b.2 + durationToMs 30 .minutes ≤ a.2) :=
  pings_min_interval_invariant
    (ReachablePing.step "x" 1800000 (ReachablePing.step "x" 0 ReachablePing.empty))

/-- C8: whenever the throttle rejects, the handler leaves the event log
exactly as it was and reports success false with the human-readable reason
used by the source. -/
theorem ping_reject_no_write (ipHmac : String) (now : Int) (st : PingState)
    (h : shouldRecordPing (lastPingTimestamp ipHmac st.pings) now = false) :
    (pingHandler ipHmac now st).1.pings = st.pings ∧
    (pingHandler ipHmac now st).2 =
      { success := false,
        message := "Ping not recorded - less than 30 minutes since last ping" } := by
  constructor
  · rw [pingHandler_pings, if_neg (by simp [h])]
  · simp only [pingHandler]
    rw [if_neg (by simp [h])]

/-- Witness: identifier X pinged at t0 = 0; a second attempt at
t0 + 20 minutes is refused and the log still holds exactly the one event. -/
theorem ping_reject_no_write_witness :
    shouldRecordPing (lastPingTimestamp "X" [("X", 0)]) 1200000 = false ∧
    (pingHandler "X" 1200000 ⟨["X"], [("X", 0)]⟩).1.pings = [("X", 0)] ∧
    (pingHandler "X" 1200000 ⟨["X"], [("X", 0)]⟩).2 =
      { success := false,
        message := "Ping not recorded - less than 30 minutes since last ping" } := by
  have h0 : lastPingTimestamp "X" [("X", 0)] = some 0 := rfl
  have h : shouldRecordPing (lastPingTimestamp "X" [("X", 0)]) 1200000 = false := by
    rw [h0, Bool.eq_false_iff]
    intro hc
    have := (shouldRecordPing_some_iff 0 1200000).mp hc
    omega
  exact ⟨h, (ping_reject_no_write "X" 1200000 ⟨["X"], [("X", 0)]⟩ h).1,
    (ping_reject_no_write "X" 1200000 ⟨["X"], [("X", 0)]⟩ h).2⟩

/-- C3: the identifier is the hex of an HMAC-SHA-256 keyed by the pepper
over the hex SHA-256 digest of the UTF-8 address, and the function is a pure
function of (address, pepper): equal inputs give equal identifiers. -/
theorem generateDoubleHash_two_stage (ip pepper : String) :
    generateDoubleHash ip pepper =
      hexEncode (hmacSha256 (utf8Bytes pepper)
        (utf8Bytes (hexEncode (sha256 (utf8Bytes ip))))) ∧
    ∀ ip2 pepper2, ip2 = ip → pepper2 = pepper →
      generateDoubleHash ip2 pepper2 = generateDoubleHash ip pepper :=
  ⟨rfl, fun _ _ h1 h2 => by rw [h1, h2]⟩

/-- Witness: determinism of the double hash at a concrete input. -/
theorem generateDoubleHash_two_stage_witness :
    generateDoubleHash "127.0.0.1" "pep" = generateDoubleHash "127.0.0.1" "pep" :=
  (generateDoubleHash_two_stage "127.0.0.1" "pep").2 "127.0.0.1" "pep" rfl rfl

/-- The registry insert is a no-op on a present identifier. -/
theorem registryInsert_mem {id : String} {reg : List String} (h : id ∈ reg) :
    registryInsert id reg = reg := by
  unfold registryInsert
  rw [if_pos (by simpa using h)]

/-- The registry insert appends an absent identifier. -/
theorem registryInsert_not_mem {id : String} {reg : List String} (h : id ∉ reg) :
    registryInsert id reg = reg ++ [id] := by
  unfold registryInsert
  rw [if_neg (by simpa using h)]

/-- C9: upserting twice (starting from a registry holding the identifier at
most once) leaves exactly one row for it and is idempotent; a row is
appended if and only if none exists; and the call returns the identifier
itself, not a surrogate. -/
theorem upsertIp_idempotent (ip pepper : String) (reg : List String)
    (hreg : reg.count (generateDoubleHash ip pepper) ≤ 1) :
    (upsertIp ip pepper ((upsertIp ip pepper reg).1)).1.count (generateDoubleHash ip pepper)
        = 1 ∧
    (upsertIp ip pepper ((upsertIp ip pepper reg).1)).1 = (upsertIp ip pepper reg).1 ∧
    (generateDoubleHash ip pepper ∉ reg →
      (upsertIp ip pepper reg).1 = reg ++ [generateDoubleHash ip pepper]) ∧
    (generateDoubleHash ip pepper ∈ reg → (upsertIp ip pepper reg).1 = reg) ∧
    (upsertIp ip pepper reg).2 = generateDoubleHash ip pepper := by
  have hu1 : (upsertIp ip pepper reg).1
      = registryInsert (generateDoubleHash ip pepper) reg := rfl
  have hu2 : (upsertIp ip pepper ((upsertIp ip pepper reg).1)).1
      = registryInsert (generateDoubleHash ip pepper) ((upsertIp ip pepper reg).1) := rfl
  by_cases hmem : generateDoubleHash ip pepper ∈ reg
  · have honce : (upsertIp ip pepper reg).1 = reg := hu1.trans (registryInsert_mem hmem)
    have htwice : (upsertIp ip pepper ((upsertIp ip pepper reg).1)).1 = reg := by
      rw [hu2, honce, registryInsert_mem hmem]
    have hcount : 1 ≤ reg.count (generateDoubleHash ip pepper) :=
      List.one_le_count_iff.mpr hmem
    exact ⟨by rw [htwice]; omega, by rw [htwice, honce], fun hn => absurd hmem hn,
      fun _ => honce, rfl⟩
  · have honce : (upsertIp ip pepper reg).1 = reg ++ [generateDoubleHash ip pepper] :=
      hu1.trans (registryInsert_not_mem hmem)
    have hmem2 : generateDoubleHash ip pepper ∈ reg ++ [generateDoubleHash ip pepper] := by
      simp
    have htwice : (upsertIp ip pepper ((upsertIp ip pepper reg).1)).1
        = reg ++ [generateDoubleHash ip pepper] := by
      rw [hu2, honce, registryInsert_mem hmem2]
    refine ⟨?_, by rw [htwice, honce], fun _ => honce, fun hc => absurd hc hmem, rfl⟩
    rw [htwice, List.count_append]
    have hz : reg.count (generateDoubleHash ip pepper) = 0 := List.count_eq_zero.mpr hmem
    simp [hz]

/-- Witness: upserting the same address twice into an empty registry. -/
theorem upsertIp_idempotent_witness :
    (upsertIp "127.0.0.1" "pep" ((upsertIp "127.0.0.1" "pep" []).1)).1.count
        (generateDoubleHash "127.0.0.1" "pep") = 1 ∧
    (upsertIp "127.0.0.1" "pep" ((upsertIp "127.0.0.1" "pep" []).1)).1
        = (upsertIp "127.0.0.1" "pep" []).1 ∧
    (generateDoubleHash "127.0.0.1" "pep" ∉ ([] : List String) →
      (upsertIp "127.0.0.1" "pep" []).1 = [] ++ [generateDoubleHash "127.0.0.1" "pep"]) ∧
    (generateDoubleHash "127.0.0.1" "pep" ∈ ([] : List String) →
      (upsertIp "127.0.0.1" "pep" []).1 = []) ∧
    (upsertIp "127.0.0.1" "pep" []).2 = generateDoubleHash "127.0.0.1" "pep" :=
  upsertIp_idempotent "127.0.0.1" "pep" [] (by simp)

/-! ## Query parameter resolution lemmas -/

/-- A value outside the allow-list resolves to the default. -/
theorem parseQueryParam_default {s : String} {d : String} {l : List String} (h : s ∉ l) :
    parseQueryParam (some s) d (some l) = d := by
  have hc : l.contains s = false := by
    rw [← Bool.not_eq_true]
    intro hcc
    exact h (by simpa using hcc)
  simp only [parseQueryParam]
  rw [if_neg]
  rintro ⟨-, hor⟩
  rcases hor with h1 | h2
  · simp at h1
  · rw [Option.getD_some, hc] at h2
    exact Bool.false_ne_true h2

/-- When the default itself is in the allow-list, the resolved value always
is. -/
theorem parseQueryParam_mem (v : Option String) (d : String) (l : List String)
    (hd : d ∈ l) : parseQueryParam v d (some l) ∈ l := by
  cases v with
  | none => simpa only [parseQueryParam] using hd
  | some s =>
    simp only [parseQueryParam]
    split
    · rename_i hcond
      have := hcond.2.resolve_left (by simp)
      simpa using this
    · exact hd

/-- C5: any period value outside the enumerated set resolves to the
configured default 30d before range resolution, so the grouped query gets
exactly the default range, which is a real range and not the unbounded
"all" behaviour. -/
theorem period_default_resolution (s : String) (now : Int) (h : s ∉ allowedPeriods) :
    parseQueryParam (some s) "30d" (some allowedPeriods) = "30d" ∧
    resolvedDateRange (some s) now = getDateRange "30d" now ∧
    resolvedDateRange (some s) now ≠ none ∧
    getDateRange "30d" now ≠ getDateRange "all" now := by
  have hp : parseQueryParam (some s) "30d" (some allowedPeriods) = "30d" :=
    parseQueryParam_default h
  have h30 : getDateRange "30d" now
      = some (jsSetHours (jsSetDate now (jsDate now - 30)) 0 0 0 0, now) := rfl
  have hall : getDateRange "all" now = none := rfl
  refine ⟨hp, ?_, ?_, ?_⟩
  · unfold resolvedDateRange
    rw [hp]
  · unfold resolvedDateRange
    rw [hp, h30]
    simp
  · rw [h30, hall]
    simp

/-- Witness: the period "bogus" resolves to the default range at now = 0. -/
theorem period_default_resolution_witness :
    parseQueryParam (some "bogus") "30d" (some allowedPeriods) = "30d" ∧
    resolvedDateRange (some "bogus") 0 = getDateRange "30d" 0 ∧
    resolvedDateRange (some "bogus") 0 ≠ none ∧
    getDateRange "30d" 0 ≠ getDateRange "all" 0 :=
  period_default_resolution "bogus" 0 (by decide)

set_option maxRecDepth 4096 in
/-- C7: the ORDER BY fragment of the unique-activity query is built only
from the two allow-lists: the resolved sort column and order always lie in
them, the full query text is always one of the four fixed strings (so raw
caller input is never interpolated), and any non-enumerated request value is
replaced by the default before query construction. -/
theorem sort_allowlist (sbP soP : Option String) :
    parseQueryParam sbP "first_seen" (some allowedSortBy) ∈ allowedSortBy ∧
    parseQueryParam soP "desc" (some allowedSortOrder) ∈ allowedSortOrder ∧
    dataQuerySQL
        ((validSortByColumns (parseQueryParam sbP "first_seen" (some allowedSortBy))).getD
          "undefined")
        (asciiUpper (parseQueryParam soP "desc" (some allowedSortOrder)))
      ∈ [dataQuerySQL "first_seen" "ASC", dataQuerySQL "first_seen" "DESC",
         dataQuerySQL "total_pings" "ASC", dataQuerySQL "total_pings" "DESC"] ∧
    (∀ s, sbP = some s → s ∉ allowedSortBy →
      parseQueryParam sbP "first_seen" (some allowedSortBy) = "first_seen") ∧
    (∀ s, soP = some s → s ∉ allowedSortOrder →
      parseQueryParam soP "desc" (some allowedSortOrder) = "desc") := by
  have h1 : parseQueryParam sbP "first_seen" (some allowedSortBy) ∈ allowedSortBy :=
    parseQueryParam_mem sbP "first_seen" allowedSortBy (by decide)
  have h2 : parseQueryParam soP "desc" (some allowedSortOrder) ∈ allowedSortOrder :=
    parseQueryParam_mem soP "desc" allowedSortOrder (by decide)
  refine ⟨h1, h2, ?_, fun s hs hn => by rw [hs]; exact parseQueryParam_default hn,
    fun s hs hn => by rw [hs]; exact parseQueryParam_default hn⟩
  have h1' : parseQueryParam sbP "first_seen" (some allowedSortBy) = "first_seen" ∨
      parseQueryParam sbP "first_seen" (some allowedSortBy) = "total_pings" := by
    simpa [allowedSortBy] using h1
  have h2' : parseQueryParam soP "desc" (some allowedSortOrder) = "asc" ∨
      parseQueryParam soP "desc" (some allowedSortOrder) = "desc" := by
    simpa [allowedSortOrder] using h2
  rcases h1' with he | he <;> rcases h2' with ho | ho <;> rw [he, ho] <;> decide

/-- Witness: a hostile sort column and an unknown order both resolve to the
defaults. -/
theorem sort_allowlist_witness :
    parseQueryParam (some "drop table") "first_seen" (some allowedSortBy) = "first_seen" ∧
    parseQueryParam (some "bogus") "desc" (some allowedSortOrder) = "desc" :=
  ⟨(sort_allowlist (some "drop table") (some "bogus")).2.2.2.1 "drop table" rfl (by decide),
    (sort_allowlist (some "drop table") (some "bogus")).2.2.2.2 "bogus" rfl (by decide)⟩

/-! ## Pagination lemmas -/

/-- The resolved page is at least 1. -/
theorem resolvePage_ge_one (p : Option String) : 1 ≤ resolvePage p := by
  cases p with
  | none => norm_num [resolvePage]
  | some s =>
    by_cases hs : s = ""
    · simp [resolvePage, hs]
    · simp only [resolvePage, hs, if_false, reduceIte]
      cases hp : parseIntDec s with
      | none => norm_num
      | some n =>
        dsimp only
        split <;> omega

/-- The resolved page size lies within 1..100. -/
theorem resolvePageSize_bounds (p : Option String) :
    1 ≤ resolvePageSize p ∧ resolvePageSize p ≤ 100 := by
  cases p with
  | none => norm_num [resolvePageSize]
  | some s =>
    by_cases hs : s = ""
    · simp [resolvePageSize, hs]
    · simp only [resolvePageSize, hs, if_false, reduceIte]
      cases hp : parseIntDec s with
      | none => norm_num
      | some n =>
        dsimp only
        constructor <;> (split <;> split <;> omega)

/-- Math.ceil bounds, upper side: the item count never exceeds page size
times the page count. -/
theorem jsCeilDiv_ge (a b : Int) (hb : 0 < b) : a ≤ b * jsCeilDiv a b := by
  unfold jsCeilDiv
  have hb' : (0 : ℚ) < (b : ℚ) := by exact_mod_cast hb
  have h1 : ((a : ℚ) / (b : ℚ)) ≤ ((⌈(a : ℚ) / (b : ℚ)⌉ : Int) : ℚ) := Int.le_ceil _
  rw [div_le_iff hb'] at h1
  have h2 : (a : ℚ) ≤ ((b * ⌈(a : ℚ) / (b : ℚ)⌉ : Int) : ℚ) := by
    push_cast
    linarith
  exact_mod_cast h2

/-- Math.ceil bounds, lower side: one page fewer would not cover the
items. -/
theorem jsCeilDiv_lt (a b : Int) (hb : 0 < b) : b * (jsCeilDiv a b - 1) < a := by
  unfold jsCeilDiv
  have hb' : (0 : ℚ) < (b : ℚ) := by exact_mod_cast hb
  have h1 : ((⌈(a : ℚ) / (b : ℚ)⌉ : Int) : ℚ) < (a : ℚ) / (b : ℚ) + 1 := Int.ceil_lt_add_one _
  have h2 : ((⌈(a : ℚ) / (b : ℚ)⌉ : Int) : ℚ) - 1 < (a : ℚ) / (b : ℚ) := by linarith
  rw [lt_div_iff hb'] at h2
  have h3 : ((b * (⌈(a : ℚ) / (b : ℚ)⌉ - 1) : Int) : ℚ) < (a : ℚ) := by
    push_cast
    linarith
  exact_mod_cast h3

/-- ORDER BY evaluation preserves the row count. -/
theorem length_sqlOrderRows (col ord : String) (rows : List UniqueActivityRecord) :
    (sqlOrderRows col ord rows).length = rows.length := by
  unfold sqlOrderRows
  exact List.length_mergeSort rows

/-- The grouped result has one row per distinct identifier. -/
theorem length_groupRows (log : List (String × Int)) :
    (groupRows log).length = (uniqueIds log).length :=
  List.length_map _ _

/-- C4 counterexample: a pageSize below 1 does not clamp to the nearer
bound 1 - the source replaces it with the default 10. -/
theorem resolvePageSize_zero_not_one :
    resolvePageSize (some "0") = 10 ∧ resolvePageSize (some "0") ≠ 1 := by decide

/-- C4 (amended): page values below 1 clamp to 1; pageSize is always within
1..100, with values below 1 (like absent or malformed ones) replaced by the
default 10 and values above 100 clamped to 100; the data slice starts at
offset (page - 1) * pageSize; and totalPages is exactly the ceiling of
totalItems / pageSize. -/
theorem pagination_resolution (pp psP sbP soP : Option String)
    (log : List (String × Int)) :
    (∀ s n, parseIntDec s = some n → n < 1 → resolvePage (some s) = 1) ∧
    (∀ s n, parseIntDec s = some n → n < 1 → resolvePageSize (some s) = 10) ∧
    (∀ s, parseIntDec s = none → resolvePageSize (some s) = 10) ∧
    (∀ s n, parseIntDec s = some n → 100 < n → resolvePageSize (some s) = 100) ∧
    1 ≤ resolvePage pp ∧
    1 ≤ resolvePageSize psP ∧ resolvePageSize psP ≤ 100 ∧
    resolvePageSize none = 10 ∧
    resolvePageSize (some "") = 10 ∧
    (uniqueActivity pp psP sbP soP log).data =
      ((sqlOrderRows
          ((validSortByColumns (parseQueryParam sbP "first_seen" (some allowedSortBy))).getD
            "undefined")
          (asciiUpper (parseQueryParam soP "desc" (some allowedSortOrder)))
          (groupRows log)).drop
        ((resolvePage pp - 1) * resolvePageSize psP).toNat).take
        (resolvePageSize psP).toNat ∧
    (uniqueActivity pp psP sbP soP log).pagination.totalPages
        = jsCeilDiv ((uniqueIds log).length : Int) (resolvePageSize psP) ∧
    ((uniqueIds log).length : Int)
        ≤ resolvePageSize psP * (uniqueActivity pp psP sbP soP log).pagination.totalPages ∧
    resolvePageSize psP * ((uniqueActivity pp psP sbP soP log).pagination.totalPages - 1)
        < ((uniqueIds log).length : Int) := by
  have hps := resolvePageSize_bounds psP
  have htp : (uniqueActivity pp psP sbP soP log).pagination.totalPages
      = jsCeilDiv ((uniqueIds log).length : Int) (resolvePageSize psP) := rfl
  refine ⟨?_, ?_, ?_, ?_, resolvePage_ge_one pp, hps.1, hps.2, rfl, by decide, rfl, htp,
    ?_, ?_⟩
  · intro s n hp hn
    by_cases hs : s = ""
    · subst hs
      rw [show parseIntDec "" = none from rfl] at hp
      cases hp
    · simp only [resolvePage, hs, if_false, reduceIte, hp]
      rw [if_pos hn]
  · intro s n hp hn
    by_cases hs : s = ""
    · subst hs
      rw [show parseIntDec "" = none from rfl] at hp
      cases hp
    · simp only [resolvePageSize, hs, if_false, reduceIte, hp]
      rw [if_pos hn]
      norm_num
  · intro s hp
    by_cases hs : s = ""
    · subst hs
      decide
    · simp only [resolvePageSize, hs, if_false, reduceIte, hp]
      norm_num
  · intro s n hp hn
    by_cases hs : s = ""
    · subst hs
      rw [show parseIntDec "" = none from rfl] at hp
      cases hp
    · simp only [resolvePageSize, hs, if_false, reduceIte, hp]
      rw [if_neg (show ¬n < 1 by omega)]
      rw [if_pos (show n > 100 by omega)]
  · rw [htp]
    exact jsCeilDiv_ge _ _ (by omega)
  · rw [htp]
    exact jsCeilDiv_lt _ _ (by omega)

/-- Witness for the amended pagination claim: page 0 clamps to 1, pageSize
500 clamps to 100, pageSize 0 and a malformed pageSize default to 10. -/
theorem pagination_resolution_witness :
    resolvePage (some "0") = 1 ∧ resolvePageSize (some "500") = 100 ∧
    resolvePageSize (some "0") = 10 ∧ resolvePageSize (some "abc") = 10 := by
  obtain ⟨h1, h2, h3, h4, -⟩ := pagination_resolution (some "0") (some "500") none none []
  exact ⟨h1 "0" 0 (by decide) (by decide), h4 "500" 500 (by decide) (by decide),
    h2 "0" 0 (by decide) (by decide), h3 "abc" (by decide)⟩

/-- C10: when the (clamped) page number exceeds totalPages, the operation
still succeeds with an empty data page, currentPage reports the requested
page unchanged, and totalItems and totalPages do not depend on the
requested page. -/
theorem page_beyond_total (pp psP sbP soP : Option String) (log : List (String × Int))
    (h : (uniqueActivity pp psP sbP soP log).pagination.totalPages < resolvePage pp) :
    (uniqueActivity pp psP sbP soP log).data = [] ∧
    (uniqueActivity pp psP sbP soP log).pagination.currentPage = resolvePage pp ∧
    (uniqueActivity pp psP sbP soP log).pagination.totalItems = (uniqueIds log).length ∧
    ∀ pp2, (uniqueActivity pp2 psP sbP soP log).pagination.totalItems
          = (uniqueActivity pp psP sbP soP log).pagination.totalItems ∧
        (uniqueActivity pp2 psP sbP soP log).pagination.totalPages
          = (uniqueActivity pp psP sbP soP log).pagination.totalPages := by
  refine ⟨?_, rfl, rfl, fun pp2 => ⟨rfl, rfl⟩⟩
  have hps := resolvePageSize_bounds psP
  have hpage := resolvePage_ge_one pp
  have htp : (uniqueActivity pp psP sbP soP log).pagination.totalPages
      = jsCeilDiv ((uniqueIds log).length : Int) (resolvePageSize psP) := rfl
  rw [htp] at h
  have hge := jsCeilDiv_ge ((uniqueIds log).length : Int) (resolvePageSize psP) (by omega)
  have hmul : resolvePageSize psP
        * jsCeilDiv ((uniqueIds log).length : Int) (resolvePageSize psP)
      ≤ resolvePageSize psP * (resolvePage pp - 1) :=
    mul_le_mul_of_nonneg_left (by omega) (by omega)
  have hn : ((uniqueIds log).length : Int) ≤ (resolvePage pp - 1) * resolvePageSize psP := by
    have := hge.trans hmul
    rw [mul_comm] at this
    exact this
  have hdata : (uniqueActivity pp psP sbP soP log).data =
      ((sqlOrderRows
          ((validSortByColumns (parseQueryParam sbP "first_seen" (some allowedSortBy))).getD
            "undefined")
          (asciiUpper (parseQueryParam soP "desc" (some allowedSortOrder)))
          (groupRows log)).drop
        ((resolvePage pp - 1) * resolvePageSize psP).toNat).take
        (resolvePageSize psP).toNat := rfl
  rw [hdata]
  have hlen : (sqlOrderRows
      ((validSortByColumns (parseQueryParam sbP "first_seen" (some allowedSortBy))).getD
        "undefined")
      (asciiUpper (parseQueryParam soP "desc" (some allowedSortOrder)))
      (groupRows log)).length = (uniqueIds log).length := by
    rw [length_sqlOrderRows, length_groupRows]
  have hle : (sqlOrderRows
      ((validSortByColumns (parseQueryParam sbP "first_seen" (some allowedSortBy))).getD
        "undefined")
      (asciiUpper (parseQueryParam soP "desc" (some allowedSortOrder)))
      (groupRows log)).length ≤ ((resolvePage pp - 1) * resolvePageSize psP).toNat := by
    rw [hlen]
    omega
  rw [List.drop_eq_nil_of_le hle, List.take_nil]

/-- Witness: page 5 of a one-event log (totalPages 1) yields an empty data
page with currentPage 5. -/
theorem page_beyond_total_witness :
    (uniqueActivity (some "5") none none none [("a", 3)]).pagination.totalPages
        < resolvePage (some "5") ∧
    (uniqueActivity (some "5") none none none [("a", 3)]).data = [] ∧
    (uniqueActivity (some "5") none none none [("a", 3)]).pagination.currentPage
        = resolvePage (some "5") := by
  have h1 : jsCeilDiv ((1 : Nat) : Int) 10 = 1 := by
    unfold jsCeilDiv
    rw [show (((1 : Nat) : Int) : ℚ) / ((10 : Int) : ℚ) = 1 / 10 by norm_num]
    rw [Int.ceil_eq_iff] <;> norm_num
  have h : (uniqueActivity (some "5") none none none [("a", 3)]).pagination.totalPages
      < resolvePage (some "5") := by
    rw [show (uniqueActivity (some "5") none none none [("a", 3)]).pagination.totalPages
      = jsCeilDiv ((1 : Nat) : Int) 10 from rfl, h1]
    decide
  obtain ⟨hd, hc, -⟩ := page_beyond_total (some "5") none none none [("a", 3)] h
  exact ⟨h, hd, hc⟩

end Cdn
